import Mathlib

/-!
Verification development for a database-schema MCP server
(a Node.js program in src/server.js that exposes a Postgres database
through list-resources / read-resource / list-tools / call-tool handlers).

The JavaScript source is shallowly embedded:
* resource addressing (URL building and parsing) is modelled at the level
  of URL path strings, including WHATWG relative-reference resolution and
  path percent-encoding, which `new URL(ref, base)` performs;
* the connection pool and the database driver are modelled as oracles
  (`Db`): every `client.query` call is an `Except`-valued field of the
  oracle, and every handler additionally returns the list of pool /
  statement events it performed, in order;
* `JSON.stringify` is modelled by compact renderers (the pretty-printing
  whitespace of the original output is immaterial to every statement).
-/

namespace DbSchemaMcp

/-! ## String helpers -/

/-- Data-level extensionality for strings. -/
theorem strExt {s t : String} (h : s.data = t.data) : s = t := by
  cases s; cases t; cases h; rfl

theorem strDataAppend (s t : String) : (s ++ t).data = s.data ++ t.data := rfl

theorem strAppendEmpty (s : String) : s ++ "" = s := by
  apply strExt; rw [strDataAppend]; exact List.append_nil s.data

theorem strAppendAssoc (a b c : String) : a ++ b ++ c = a ++ (b ++ c) := by
  apply strExt; rw [strDataAppend, strDataAppend, strDataAppend, strDataAppend]
  exact List.append_assoc a.data b.data c.data

/-- The slash character, the only path delimiter inside a URL pathname. -/
def slashChar : Char := Char.ofNat 47

/-- Splitting a character list at every slash, accumulating the current
segment; mirrors the behavior of the JavaScript `pathname.split("/")`. -/
def splitSlashAux : List Char → List Char → List String
  | [], acc => [String.mk acc]
  | c :: rest, acc =>
    if c = slashChar then String.mk acc :: splitSlashAux rest []
    else splitSlashAux rest (acc ++ [c])

/-- `pathname.split("/")` from the read-resource handler. -/
def splitSlash (s : String) : List String := splitSlashAux s.data []

/-- Joining path segments with slashes (serialization of a URL path). -/
def joinSlash : List String → String
  | [] => ""
  | [s] => s
  | s :: rest => s ++ "/" ++ joinSlash rest

theorem splitSlashAux_noSlash (l : List Char) :
    ∀ acc, slashChar ∉ l → splitSlashAux l acc = [String.mk (acc ++ l)] := by
  induction l with
  | nil => intro acc _; simp [splitSlashAux]
  | cons c rest ih =>
    intro acc h
    have hc : c ≠ slashChar := fun he => h (he ▸ List.mem_cons_self c rest)
    have hr : slashChar ∉ rest := fun hm => h (List.mem_cons_of_mem c hm)
    simp only [splitSlashAux, if_neg hc, ih (acc ++ [c]) hr, List.append_assoc,
      List.singleton_append]

theorem splitSlashAux_slash (l : List Char) :
    ∀ acc rest, slashChar ∉ l →
      splitSlashAux (l ++ slashChar :: rest) acc =
        String.mk (acc ++ l) :: splitSlashAux rest [] := by
  induction l with
  | nil => intro acc rest _; simp [splitSlashAux]
  | cons c tl ih =>
    intro acc rest h
    have hc : c ≠ slashChar := fun he => h (he ▸ List.mem_cons_self c tl)
    have ht : slashChar ∉ tl := fun hm => h (List.mem_cons_of_mem c hm)
    simp only [List.cons_append, splitSlashAux, if_neg hc]
    show splitSlashAux (tl ++ slashChar :: rest) (acc ++ [c])
        = String.mk (acc ++ c :: tl) :: splitSlashAux rest []
    rw [ih (acc ++ [c]) rest ht, List.append_assoc, List.singleton_append]

/-- Splitting after a leading slash prepends an empty segment. -/
theorem splitSlash_slash_prefix (s : String) :
    splitSlash ("/" ++ s) = "" :: splitSlash s := by
  show splitSlashAux (("/" ++ s).data) [] = "" :: splitSlashAux s.data []
  rw [strDataAppend]
  show splitSlashAux (slashChar :: s.data) [] = "" :: splitSlashAux s.data []
  simp [splitSlashAux]

/-- Splitting is a left inverse of joining when no segment contains a slash. -/
theorem splitSlash_joinSlash (L : List String) :
    L ≠ [] → (∀ s ∈ L, slashChar ∉ s.data) → splitSlash (joinSlash L) = L := by
  induction L with
  | nil => intro hne _; exact absurd rfl hne
  | cons s rest ih =>
    intro _ h
    cases rest with
    | nil =>
      show splitSlashAux s.data [] = [s]
      rw [splitSlashAux_noSlash s.data [] (h s (List.mem_cons_self s [])),
        List.nil_append]
    | cons r rs =>
      show splitSlashAux ((s ++ "/" ++ joinSlash (r :: rs)).data) [] = s :: r :: rs
      rw [strAppendAssoc, strDataAppend]
      have hdl : ("/" ++ joinSlash (r :: rs)).data
          = slashChar :: (joinSlash (r :: rs)).data := by
        rw [strDataAppend]; rfl
      rw [hdl, splitSlashAux_slash s.data [] (joinSlash (r :: rs)).data
        (h s (List.mem_cons_self s (r :: rs))), List.nil_append]
      have hrest : (r :: rs : List String) ≠ [] := by simp
      have hmem : ∀ x ∈ (r :: rs : List String), slashChar ∉ x.data :=
        fun x hx => h x (List.mem_cons_of_mem s hx)
      rw [show splitSlashAux (joinSlash (r :: rs)).data [] = splitSlash (joinSlash (r :: rs)) from rfl,
        ih hrest hmem]

/-- Every element produced by splitting at slashes is slash-free. -/
theorem splitSlashAux_mem_noSlash :
    ∀ (l acc : List Char), slashChar ∉ acc →
      ∀ s ∈ splitSlashAux l acc, slashChar ∉ s.data := by
  intro l
  induction l with
  | nil =>
    intro acc hacc s hs
    rw [List.mem_singleton.mp hs]
    exact hacc
  | cons c rest ih =>
    intro acc hacc s hs
    by_cases hc : c = slashChar
    · rw [splitSlashAux, if_pos hc] at hs
      rcases List.mem_cons.mp hs with h | h
      · rw [h]; exact hacc
      · exact ih [] (by simp) s h
    · rw [splitSlashAux, if_neg hc] at hs
      refine ih (acc ++ [c]) ?_ s hs
      intro hm
      rcases List.mem_append.mp hm with h | h
      · exact hacc h
      · exact hc (List.mem_singleton.mp h).symm

theorem splitSlash_mem_noSlash (p : String) :
    ∀ s ∈ splitSlash p, slashChar ∉ s.data :=
  splitSlashAux_mem_noSlash p.data [] (by simp)

/-! ## URL path percent-encoding and relative-reference resolution

The list-resources handler builds each resource URI with
`new URL(tableName + "/schema", resourceBaseUrl).href`.  The WHATWG URL
machinery that this invokes is modelled here: the relative reference is
cut at the first question mark or number sign (query / fragment), split
at slashes, dot segments are removed, and every remaining segment is
percent-encoded with the path percent-encode set over its UTF-8 bytes. -/

/-- UTF-8 bytes of one character (as natural numbers below 256). -/
def utf8Bytes (c : Char) : List Nat :=
  let n := c.toNat
  if n < 128 then [n]
  else if n < 2048 then [192 + n / 64, 128 + n % 64]
  else if n < 65536 then [224 + n / 4096, 128 + n / 64 % 64, 128 + n % 64]
  else [240 + n / 262144, 128 + n / 4096 % 64, 128 + n / 64 % 64, 128 + n % 64]

/-- The WHATWG path percent-encode set, as a predicate on byte values:
C0 controls, space, quote, number sign, less-than, greater-than,
question mark, backquote, both curly brackets, delete, and every
non-ASCII byte. -/
def inPathEncodeSet (b : Nat) : Bool :=
  b ≤ 32 || b == 34 || b == 35 || b == 60 || b == 62 || b == 63 ||
    b == 96 || b == 123 || b == 125 || b ≥ 127

def hexDigitChar (n : Nat) : Char :=
  if n < 10 then Char.ofNat (48 + n) else Char.ofNat (55 + n)

/-- Percent-encoding of one byte, using uppercase hexadecimal digits. -/
def percentEncodeByte (b : Nat) : String :=
  String.mk [Char.ofNat 37, hexDigitChar (b / 16), hexDigitChar (b % 16)]

def encodeByte (b : Nat) : String :=
  if inPathEncodeSet b then percentEncodeByte b else String.mk [Char.ofNat b]

def encodeBytesList : List Nat → String
  | [] => ""
  | b :: rest => encodeByte b ++ encodeBytesList rest

def encodeChars : List Char → String
  | [] => ""
  | c :: rest => encodeBytesList (utf8Bytes c) ++ encodeChars rest

/-- Percent-encoding of one path segment. -/
def encodeSegment (s : String) : String := encodeChars s.data

def questionChar : Char := Char.ofNat 63
def hashChar : Char := Char.ofNat 35

/-- The part of a relative reference before any query or fragment. -/
def stripQueryFragment (s : String) : String :=
  String.mk (s.data.takeWhile (fun c => ¬ (c = questionChar ∨ c = hashChar)))

def colonChar : Char := Char.ofNat 58

def toLowerChar (c : Char) : Char :=
  if 65 <= c.toNat ∧ c.toNat <= 90 then Char.ofNat (c.toNat + 32) else c

def isAlphaChar (c : Char) : Bool :=
  (65 <= c.toNat && c.toNat <= 90) || (97 <= c.toNat && c.toNat <= 122)

/-- Characters allowed after the first one inside a URL scheme:
ASCII alphanumerics, plus, minus and period. -/
def isSchemeChar (c : Char) : Bool :=
  isAlphaChar c || (48 <= c.toNat && c.toNat <= 57) ||
    c.toNat == 43 || c.toNat == 45 || c.toNat == 46

/-- Scan for a colon preceded only by scheme characters. -/
def schemeColonAux : List Char → Bool
  | [] => false
  | c :: rest => if c = colonChar then true else isSchemeChar c && schemeColonAux rest

/-- Scheme detection of the WHATWG parser: a reference beginning with an
ASCII alphabetic character followed by scheme characters and a colon is
parsed as an absolute URL and the base is ignored. -/
def refHasScheme (s : String) : Bool :=
  match s.data with
  | [] => false
  | c :: rest => isAlphaChar c && schemeColonAux rest

def schemeOfAux : List Char → List Char
  | [] => []
  | c :: rest => if c = colonChar then [] else toLowerChar c :: schemeOfAux rest

/-- The detected scheme of an absolute reference, lowercased as the
parser stores it. -/
def schemeOf (s : String) : String := String.mk (schemeOfAux s.data)

def afterColonAux : List Char → List Char
  | [] => []
  | c :: rest => if c = colonChar then rest else afterColonAux rest

/-- Everything after the first colon of an absolute reference. -/
def afterColonStr (s : String) : String := String.mk (afterColonAux s.data)

/-- The C0-control percent-encode set used for opaque paths: C0
controls, delete, and every non-ASCII byte (space is left as is). -/
def inC0EncodeSet (b : Nat) : Bool := b < 32 || b >= 127

def opaqueEncodeByte (b : Nat) : String :=
  if inC0EncodeSet b then percentEncodeByte b else String.mk [Char.ofNat b]

def opaqueEncodeBytes : List Nat → String
  | [] => ""
  | b :: rest => opaqueEncodeByte b ++ opaqueEncodeBytes rest

def opaqueEncodeChars : List Char → String
  | [] => ""
  | c :: rest => opaqueEncodeBytes (utf8Bytes c) ++ opaqueEncodeChars rest

/-- Percent-encoding of an opaque path (absolute reference without an
authority). -/
def opaqueEncode (s : String) : String := opaqueEncodeChars s.data

/-- Single-dot path segment test (the WHATWG parser also accepts the
percent-encoded spellings, ASCII case-insensitively). -/
def isSingleDotSeg (s : String) : Bool :=
  s = "." || s = "%2e" || s = "%2E"

/-- Double-dot path segment test, including percent-encoded spellings. -/
def isDoubleDotSeg (s : String) : Bool :=
  s = ".." || s = ".%2e" || s = ".%2E" || s = "%2e." || s = "%2E." ||
    s = "%2e%2e" || s = "%2e%2E" || s = "%2E%2e" || s = "%2E%2E"

/-- Path resolution: raw reference segments are processed left to right
against the accumulated output segments; dot segments are dropped,
double-dot segments pop, and every other segment is percent-encoded and
appended.  (The reference built by the server always ends in the literal
segment `schema`, so the end-of-input empty-segment rule of the WHATWG
parser never fires and is not modelled.) -/
def resolveSegs : List String → List String → List String
  | acc, [] => acc
  | acc, seg :: rest =>
    if isDoubleDotSeg seg then resolveSegs acc.dropLast rest
    else if isSingleDotSeg seg then resolveSegs acc rest
    else resolveSegs (acc ++ [encodeSegment seg]) rest

/-- The pathname of `new URL(t + "/schema", base)` where `baseSegs` are
the path segments of the base URL (the database name from the connection
string).  A reference starting with a slash is absolute; otherwise the
last base segment is dropped and the reference is resolved against the
remaining directory, exactly as the URL standard prescribes. -/
def buildAddressPathname (baseSegs : List String) (t : String) : String :=
  let ref := stripQueryFragment (t ++ "/schema")
  let refSegs := splitSlash ref
  if refSegs.headD "" = "" then
    "/" ++ joinSlash (resolveSegs [] (refSegs.drop 1))
  else
    "/" ++ joinSlash (resolveSegs baseSegs.dropLast refSegs)

/-- The read-resource handler splits the pathname at slashes, pops the
trailing segment as the schema tag and the one before it as the table
name, and fails unless the tag is the literal `schema`.  The table name
is `none` when fewer than two components exist (JavaScript `undefined`).
This is `parseAddress` of the specification. -/
def parseAddress (pathname : String) : Except String (Option String × String) :=
  let comps := splitSlash pathname
  let schemaSeg := comps.getLast?.getD ""
  let tableName := comps.dropLast.getLast?
  if schemaSeg = "schema" then Except.ok (tableName, schemaSeg)
  else Except.error "Invalid resource URI"

/-- A table name travels through URI building unchanged exactly when all
its characters are printable ASCII outside the path percent-encode set,
none is a slash, and the name is not a dot segment. -/
def safeTableChar (c : Char) : Bool :=
  32 < c.toNat && c.toNat < 127 &&
    !(c.toNat == 34 || c.toNat == 35 || c.toNat == 47 || c.toNat == 60 ||
      c.toNat == 62 || c.toNat == 63 || c.toNat == 92 || c.toNat == 96 ||
      c.toNat == 123 || c.toNat == 125)

def safeTableName (t : String) : Bool :=
  t.data.all safeTableChar && !isSingleDotSeg t && !isDoubleDotSeg t &&
    !refHasScheme (t ++ "/schema")

theorem safe_byte_facts {c : Char} (h : safeTableChar c = true) :
    inPathEncodeSet c.toNat = false ∧ c.toNat < 128 ∧ c.toNat ≠ 47 ∧
      c.toNat ≠ 63 ∧ c.toNat ≠ 35 := by
  simp only [safeTableChar, Bool.and_eq_true, Bool.not_eq_true', Bool.or_eq_false_iff,
    decide_eq_true_eq, beq_eq_false_iff_ne, ne_eq] at h
  obtain ⟨⟨h1, h2⟩, h3⟩ := h
  refine ⟨?_, by omega, by tauto, by tauto, by tauto⟩
  simp only [inPathEncodeSet, Bool.or_eq_false_iff, decide_eq_false_iff_not,
    beq_eq_false_iff_ne, ne_eq]
  omega

theorem utf8Bytes_ascii {c : Char} (h : c.toNat < 128) : utf8Bytes c = [c.toNat] := by
  simp [utf8Bytes, h]

theorem encodeByte_safe {c : Char} (h : safeTableChar c = true) :
    encodeByte c.toNat = String.mk [c] := by
  rw [encodeByte, (safe_byte_facts h).1, if_neg (by simp), Char.ofNat_toNat]

theorem encodeChars_safe (l : List Char) (h : l.all safeTableChar = true) :
    encodeChars l = String.mk l := by
  induction l with
  | nil => rfl
  | cons c rest ih =>
    simp only [List.all_cons, Bool.and_eq_true] at h
    rw [encodeChars, utf8Bytes_ascii (safe_byte_facts h.1).2.1, encodeBytesList,
      encodeBytesList, strAppendEmpty, encodeByte_safe h.1, ih h.2]
    apply strExt
    rw [strDataAppend]
    simp

/-- A safe table name is left unchanged by path percent-encoding. -/
theorem encodeSegment_safe (t : String) (h : t.data.all safeTableChar = true) :
    encodeSegment t = t :=
  (encodeChars_safe t.data h).trans rfl

theorem noSlash_of_safe {t : String} (h : t.data.all safeTableChar = true) :
    slashChar ∉ t.data := by
  intro hm
  have := (safe_byte_facts (List.all_eq_true.mp h _ hm)).2.2.1
  exact this rfl

theorem takeWhile_of_all {p : Char → Bool} (l : List Char)
    (h : ∀ c ∈ l, p c = true) : l.takeWhile p = l := by
  induction l with
  | nil => rfl
  | cons c rest ih =>
    rw [List.takeWhile_cons, h c (List.mem_cons_self c rest),
      ih (fun x hx => h x (List.mem_cons_of_mem c hx))]
    simp

theorem stripQueryFragment_safe (t : String) (h : t.data.all safeTableChar = true) :
    stripQueryFragment (t ++ "/schema") = t ++ "/schema" := by
  apply strExt
  show ((t ++ "/schema").data.takeWhile _) = (t ++ "/schema").data
  apply takeWhile_of_all
  intro c hc
  rw [strDataAppend] at hc
  rcases List.mem_append.mp hc with hl | hr
  · have hf := safe_byte_facts (List.all_eq_true.mp h _ hl)
    have hq : c ≠ questionChar := fun he => hf.2.2.2.1 (by rw [he]; rfl)
    have hh : c ≠ hashChar := fun he => hf.2.2.2.2 (by rw [he]; rfl)
    simp [hq, hh]
  · fin_cases hr <;> decide

theorem safeTableName_facts {t : String} (h : safeTableName t = true) :
    t.data.all safeTableChar = true ∧ isSingleDotSeg t = false ∧
      isDoubleDotSeg t = false ∧ refHasScheme (t ++ "/schema") = false := by
  simp only [safeTableName, Bool.and_eq_true, Bool.not_eq_true'] at h
  exact ⟨h.1.1.1, h.1.1.2, h.1.2, h.2⟩

/-- Round trip for safe table names: building the resource address from
`t` and parsing it back yields `(t, "schema")`, for every base path whose
segments are slash-free. -/
theorem parse_build_roundTrip (baseSegs : List String) (t : String)
    (hsafe : safeTableName t = true)
    (hbase : ∀ s ∈ baseSegs, slashChar ∉ s.data) :
    parseAddress (buildAddressPathname baseSegs t) =
      Except.ok (some t, "schema") := by
  obtain ⟨hall, hd1, hd2, hsch⟩ := safeTableName_facts hsafe
  by_cases ht0 : t = ""
  · subst ht0; rfl
  · have hns : slashChar ∉ t.data := noSlash_of_safe hall
    have hsplitRef : splitSlash (t ++ "/schema") = [t, "schema"] := by
      show splitSlashAux ((t ++ "/schema").data) [] = [t, "schema"]
      rw [strDataAppend,
        show ("/schema" : String).data = slashChar :: ("schema" : String).data from rfl,
        splitSlashAux_slash t.data [] _ hns, List.nil_append,
        splitSlashAux_noSlash _ [] (by decide), List.nil_append]
    have hhead : (([t, "schema"] : List String).headD "") = t := rfl
    have hresolve : resolveSegs baseSegs.dropLast [t, "schema"]
        = baseSegs.dropLast ++ [t] ++ ["schema"] := by
      rw [resolveSegs, if_neg (by rw [hd2]; simp), if_neg (by rw [hd1]; simp),
        encodeSegment_safe t hall, resolveSegs,
        if_neg (by decide), if_neg (by decide),
        show encodeSegment "schema" = "schema" from rfl, resolveSegs]
    have hbuild : buildAddressPathname baseSegs t
        = "/" ++ joinSlash (baseSegs.dropLast ++ [t] ++ ["schema"]) := by
      rw [buildAddressPathname]
      simp only [stripQueryFragment_safe t hall, hsplitRef, hhead, if_neg ht0]
      rw [hresolve]
    have hsegsOk : ∀ s ∈ baseSegs.dropLast ++ [t] ++ ["schema"], slashChar ∉ s.data := by
      intro s hs
      rcases List.mem_append.mp hs with hs' | hs'
      · rcases List.mem_append.mp hs' with hs'' | hs''
        · exact hbase s ((List.dropLast_sublist baseSegs).subset hs'')
        · rw [List.mem_singleton.mp hs'']; exact hns
      · rw [List.mem_singleton.mp hs']; decide
    have hsplitBack : splitSlash (buildAddressPathname baseSegs t)
        = "" :: (baseSegs.dropLast ++ [t] ++ ["schema"]) := by
      rw [hbuild, splitSlash_slash_prefix,
        splitSlash_joinSlash _ (by simp) hsegsOk]
    rw [parseAddress, hsplitBack]
    have hshape : ("" : String) :: (baseSegs.dropLast ++ [t] ++ ["schema"])
        = ("" :: (baseSegs.dropLast ++ [t])) ++ ["schema"] := by simp
    rw [hshape, List.getLast?_concat, List.dropLast_concat]
    have hlast : (("" : String) :: (baseSegs.dropLast ++ [t])).getLast? = some t := by
      rw [show ("" : String) :: (baseSegs.dropLast ++ [t])
          = (("" :: baseSegs.dropLast) ++ [t]) from by simp,
        List.getLast?_concat]
    rw [hlast]
    rfl

/-! ## Catalog rows and schema data model

Rows as returned by the four information-schema queries of the source,
and the schema records the handlers assemble from them. -/

/-- A row of the public-schema table-list query. -/
structure TableRow where
  table_name : String
deriving DecidableEq

/-- A row of the column catalog query. -/
structure ColumnRow where
  column_name : String
  data_type : String
  is_nullable : String
  column_default : Option String
deriving DecidableEq

/-- A row of the primary-key constraint query. -/
structure PkRow where
  column_name : String
deriving DecidableEq

/-- A row of the foreign-key constraint query. -/
structure FkRow where
  constraint_name : String
  column_name : String
  foreign_table_name : String
  foreign_column_name : String
deriving DecidableEq

/-- One column of a table schema, as shaped by both handlers. -/
structure ColumnDescriptor where
  name : String
  type : String
  nullable : Bool
  default : Option String
deriving DecidableEq

def mkColumnDescriptor (r : ColumnRow) : ColumnDescriptor :=
  { name := r.column_name, type := r.data_type,
    nullable := r.is_nullable = "YES", default := r.column_default }

/-- One foreign key of a table schema. -/
structure ForeignKeyInfo where
  name : String
  constrained_columns : List String
  referred_table : String
  referred_columns : List String
deriving DecidableEq

def mkForeignKeyInfo (r : FkRow) : ForeignKeyInfo :=
  { name := r.constraint_name, constrained_columns := [r.column_name],
    referred_table := r.foreign_table_name,
    referred_columns := [r.foreign_column_name] }

/-- The per-table schema record.  The name is optional because the
read-resource handler takes it from the URI, where it can be missing
(JavaScript `undefined`, serialized as JSON null). -/
structure TableInfo where
  name : Option String
  columns : List ColumnDescriptor
  primary_keys : List String
  foreign_keys : List ForeignKeyInfo
deriving DecidableEq

/-- The `schemaInfo` object assembled by the read-resource handler. -/
def assembleTableInfo (tn : Option String) (cols : List ColumnRow)
    (pks : List PkRow) (fks : List FkRow) : TableInfo :=
  { name := tn,
    columns := cols.map mkColumnDescriptor,
    primary_keys := pks.map (fun r => r.column_name),
    foreign_keys := fks.map mkForeignKeyInfo }

/-- The whole-database schema record of the get-database-schema tool.
The views and indexes collections are never populated by the source, so
their element types are immaterial. -/
structure DatabaseSchemaInfo where
  tables : List (String × TableInfo)
  views : List String
  indexes : List (String × String)
deriving DecidableEq

/-- JavaScript object-property assignment `obj[k] = v`: an existing key
is overwritten in place, a new key is appended. -/
def objInsert {α : Type} (m : List (String × α)) (k : String) (v : α) :
    List (String × α) :=
  if m.any (fun p => p.1 = k) then
    m.map (fun p => if p.1 = k then (k, v) else p)
  else m ++ [(k, v)]

/-- One table entry of the get-database-schema loop body: columns from
the column catalog, primary and foreign keys left empty. -/
def dbSchemaTableEntry (t : String) (cols : List ColumnRow) : TableInfo :=
  { name := some t, columns := cols.map mkColumnDescriptor,
    primary_keys := [], foreign_keys := [] }

/-- `describeDatabase` of the specification: the pure loop of the
get-database-schema tool over a fixed catalog snapshot, where `colsOf`
gives the rows of the column catalog query for each table name. -/
def describeDatabase (rows : List TableRow) (colsOf : String → List ColumnRow) :
    DatabaseSchemaInfo :=
  { tables := rows.foldl
      (fun m r => objInsert m r.table_name (dbSchemaTableEntry r.table_name (colsOf r.table_name))) [],
    views := [], indexes := [] }

/-- `list_tables` result shaping: one name per row of the table list. -/
def listTablesNames (rows : List TableRow) : List String :=
  rows.map (fun r => r.table_name)

/-! ## JSON serialization

Compact renderers standing for `JSON.stringify`; the two-space
pretty-printing of the original is whitespace only and is not modelled.
Literal curly brackets inside string literals are written with
hexadecimal escapes. -/

def escapeChar (c : Char) : String :=
  if c = Char.ofNat 34 then String.mk [Char.ofNat 92, Char.ofNat 34]
  else if c = Char.ofNat 92 then String.mk [Char.ofNat 92, Char.ofNat 92]
  else if c = Char.ofNat 10 then String.mk [Char.ofNat 92, Char.ofNat 110]
  else if c = Char.ofNat 13 then String.mk [Char.ofNat 92, Char.ofNat 114]
  else if c = Char.ofNat 9 then String.mk [Char.ofNat 92, Char.ofNat 116]
  else if c.toNat < 32 then
    String.mk [Char.ofNat 92, Char.ofNat 117, Char.ofNat 48, Char.ofNat 48,
      hexDigitChar (c.toNat / 16), hexDigitChar (c.toNat % 16)]
  else String.mk [c]

def escapeString : List Char → String
  | [] => ""
  | c :: rest => escapeChar c ++ escapeString rest

def renderString (s : String) : String := "\"" ++ escapeString s.data ++ "\""

def renderOptString : Option String → String
  | none => "null"
  | some s => renderString s

def renderBool (b : Bool) : String := if b then "true" else "false"

def commaJoin : List String → String
  | [] => ""
  | [s] => s
  | s :: rest => s ++ "," ++ commaJoin rest

def renderArr (items : List String) : String := "[" ++ commaJoin items ++ "]"

def renderObj (fields : List (String × String)) : String :=
  "\x7b" ++ commaJoin (fields.map (fun p => renderString p.1 ++ ":" ++ p.2)) ++ "\x7d"

def renderStringArray (l : List String) : String := renderArr (l.map renderString)

/-- A primitive JSON value inside a driver row. -/
inductive JValue where
  | null
  | bool (b : Bool)
  | num (n : Int)
  | str (s : String)
deriving DecidableEq

/-- One row of an arbitrary-SQL result, as the driver returns it:
an object from column names to values. -/
def Row : Type := List (String × JValue)

instance : DecidableEq Row := fun a b => List.hasDecEq a b

def renderJValue : JValue → String
  | .null => "null"
  | .bool b => renderBool b
  | .num n => toString n
  | .str s => renderString s

def renderRow (r : Row) : String := renderObj (r.map (fun p => (p.1, renderJValue p.2)))

/-- `JSON.stringify(result.rows)` of the query tool. -/
def renderRows (rs : List Row) : String := renderArr (rs.map renderRow)

def renderColumnDescriptor (c : ColumnDescriptor) : String :=
  renderObj [("name", renderString c.name), ("type", renderString c.type),
    ("nullable", renderBool c.nullable), ("default", renderOptString c.default)]

def renderForeignKeyInfo (f : ForeignKeyInfo) : String :=
  renderObj [("name", renderString f.name),
    ("constrained_columns", renderStringArray f.constrained_columns),
    ("referred_table", renderString f.referred_table),
    ("referred_columns", renderStringArray f.referred_columns)]

/-- `JSON.stringify(schemaInfo)` of the read-resource handler.  A
missing table name is JavaScript `undefined`, whose key
`JSON.stringify` omits entirely. -/
def renderTableInfo (t : TableInfo) : String :=
  renderObj ((match t.name with
      | none => []
      | some n => [("name", renderString n)]) ++
    [("columns", renderArr (t.columns.map renderColumnDescriptor)),
     ("primary_keys", renderStringArray t.primary_keys),
     ("foreign_keys", renderArr (t.foreign_keys.map renderForeignKeyInfo))])

/-- `JSON.stringify(schemaInfo)` of the get-database-schema tool. -/
def renderDatabaseSchemaInfo (d : DatabaseSchemaInfo) : String :=
  renderObj [("tables", renderObj (d.tables.map (fun p => (p.1, renderTableInfo p.2)))),
    ("views", renderStringArray d.views),
    ("indexes", renderObj (d.indexes.map (fun p => (p.1, renderString p.2))))]

/-! ## Connection-string URL and resource URIs

`resourceBaseUrl` in the source is the parsed connection string with the
protocol rewritten to `postgres:` and the password set to the empty
string.  A parsed URL is modelled by its components; `renderHref`
performs the WHATWG serialization of a URL with a host. -/

structure ConnUrl where
  scheme : String
  username : String
  password : String
  host : String
  port : Option Nat
  pathname : String
deriving DecidableEq

/-- The special schemes of the URL standard.  (`ConnUrl.scheme` holds
the scheme as the parser stores it, already lowercased.) -/
def isSpecialScheme (s : String) : Bool :=
  s = "http" || s = "https" || s = "ws" || s = "wss" || s = "ftp" || s = "file"

/-- `resourceBaseUrl.protocol = "postgres:"`: the WHATWG protocol setter
silently refuses to change a special scheme into a non-special one, so a
special-scheme connection string (pg accepts e.g. `http://user:pw@h/db`)
keeps its scheme; any non-special scheme is rewritten. -/
def setProtocolPostgres (c : ConnUrl) : ConnUrl :=
  if isSpecialScheme c.scheme then c else { c with scheme := "postgres" }

/-- `resourceBaseUrl`: protocol set to `postgres:` (where the setter
permits it), password cleared. -/
def resourceBase (c : ConnUrl) : ConnUrl :=
  { setProtocolPostgres c with password := "" }

def renderPort : Option Nat → String
  | none => ""
  | some n => ":" ++ toString n

/-- Userinfo serialization: present only when a username or password is
present; the password is preceded by a colon. -/
def renderUserinfo (u pw : String) : String :=
  if u = "" ∧ pw = "" then ""
  else u ++ (if pw = "" then "" else ":" ++ pw) ++ "@"

/-- `href` of a URL with a host. -/
def renderHref (c : ConnUrl) : String :=
  c.scheme ++ "://" ++ renderUserinfo c.username c.password ++ c.host ++
    renderPort c.port ++ c.pathname

/-- Path segments of a URL pathname (the leading empty split is dropped;
an empty pathname has no segments). -/
def pathSegsOf (pathname : String) : List String := (splitSlash pathname).drop 1

/-- `new URL(tableName + "/schema", base).href`.  When the reference
begins with a scheme prefix (table name like `a:b`), the base is ignored
and the result is an absolute URL whose path is opaque: its serialization
is the scheme, a colon and the C0-encoded remainder.  (For a detected
scheme that is special, or a remainder beginning with two slashes, the
real parser additionally performs authority and host parsing that this
model does not reproduce; no statement below quantifies over such
names.)  Otherwise the reference is resolved against the base as a
relative one. -/
def buildAddressHref (base : ConnUrl) (t : String) : String :=
  if refHasScheme (t ++ "/schema") then
    schemeOf (t ++ "/schema") ++ ":" ++
      opaqueEncode (stripQueryFragment (afterColonStr (t ++ "/schema")))
  else
    renderHref { base with
      pathname := buildAddressPathname (pathSegsOf base.pathname) t }

/-- The `pathname` the read-resource handler sees for a URI built by
`buildAddressHref`: for an opaque-path URL the getter returns the opaque
path itself (no leading slash); otherwise the resolved path. -/
def builtPathname (base : ConnUrl) (t : String) : String :=
  if refHasScheme (t ++ "/schema") then
    opaqueEncode (stripQueryFragment (afterColonStr (t ++ "/schema")))
  else
    buildAddressPathname (pathSegsOf base.pathname) t

/-- The URI the list-resources handler builds for one table:
`new URL(tableName + "/schema", resourceBaseUrl).href`. -/
def resourceUri (conn : ConnUrl) (t : String) : String :=
  buildAddressHref (resourceBase conn) t

/-- Fixture: a connection string with a postgresql scheme, a username
and a password. -/
def connScheme : ConnUrl :=
  { scheme := "postgresql", username := "alice", password := "secret",
    host := "localhost", port := some 5432, pathname := "/mydb" }

/-- The statements the server ever sends, identified by their shape. -/
inductive Stmt where
  | probeQ
  | listTablesQ
  | columnsQ (t : Option String)
  | primaryKeysQ (t : Option String)
  | foreignKeysQ (t : Option String)
  | beginReadOnlyQ
  | userQ (sql : Option String)
  | rollbackQ
  | commitQ
deriving DecidableEq

/-- Pool and statement events, in execution order. -/
inductive Event where
  | connect
  | release
  | exec (s : Stmt)
deriving DecidableEq

/-- Net effect of a trace on the number of checked-out connections. -/
def poolDelta (tr : List Event) : Int :=
  tr.foldl (fun acc e => match e with
    | .connect => acc + 1
    | .release => acc - 1
    | .exec _ => acc) 0

/-- The oracle: outcome of connection acquisition and of each statement.
`probeR` is `SELECT 1`; `userR` executes the caller-supplied SQL text
inside the read-only transaction (`none` models a `query` call without a
`sql` argument, where `client.query(undefined)` fails). -/
structure Db where
  connectR : Except String Unit
  probeR : Except String Unit
  listTablesR : Except String (List TableRow)
  columnsR : Option String → Except String (List ColumnRow)
  primaryKeysR : Option String → Except String (List PkRow)
  foreignKeysR : Option String → Except String (List FkRow)
  beginR : Except String Unit
  userR : Option String → Except String (List Row)
  rollbackR : Except String Unit

/-! ## The request handlers -/

/-- A tool response: one text content block plus the error flag. -/
structure ToolResponse where
  content : String
  isError : Bool
deriving DecidableEq

/-- A call-tool request: the tool name and the optional `sql` argument
(`request.params.arguments?.sql`). -/
structure CallRequest where
  name : String
  sqlArg : Option String
deriving DecidableEq

/-- The get-database-schema loop: one column query per listed table,
each result assigned into the tables object; the first failing query
aborts the loop. -/
def buildTablesLoop (colsOf : Option String → Except String (List ColumnRow)) :
    List TableRow → List (String × TableInfo) →
      Except String (List (String × TableInfo)) × List Stmt
  | [], acc => (Except.ok acc, [])
  | r :: rest, acc =>
    match colsOf (some r.table_name) with
    | .error e => (.error e, [.columnsQ (some r.table_name)])
    | .ok cols =>
      let out := buildTablesLoop colsOf rest
        (objInsert acc r.table_name (dbSchemaTableEntry r.table_name cols))
      (out.1, .columnsQ (some r.table_name) :: out.2)

/-- The body of the call-tool switch (everything inside the `try`):
result of the matched case, or the thrown message, plus the statements
sent.  Unknown tool names throw without touching the database. -/
def tryBody (db : Db) (req : CallRequest) : Except String ToolResponse × List Stmt :=
  if req.name = "connect_database" then
    match db.probeR with
    | .error e => (.error e, [.probeQ])
    | .ok _ => (.ok ⟨"Successfully connected to database", false⟩, [.probeQ])
  else if req.name = "list_tables" then
    match db.listTablesR with
    | .error e => (.error e, [.listTablesQ])
    | .ok rows => (.ok ⟨renderStringArray (listTablesNames rows), false⟩, [.listTablesQ])
  else if req.name = "get_database_schema" then
    match db.listTablesR with
    | .error e => (.error e, [.listTablesQ])
    | .ok rows =>
      match buildTablesLoop db.columnsR rows [] with
      | (.error e, tr) => (.error e, .listTablesQ :: tr)
      | (.ok tbls, tr) =>
        (.ok ⟨renderDatabaseSchemaInfo { tables := tbls, views := [], indexes := [] }, false⟩,
         .listTablesQ :: tr)
  else if req.name = "query" then
    match db.beginR with
    | .error e => (.error e, [.beginReadOnlyQ])
    | .ok _ =>
      match db.userR req.sqlArg with
      | .error e => (.error e, [.beginReadOnlyQ, .userQ req.sqlArg])
      | .ok rows =>
        match db.rollbackR with
        | .error e => (.error e, [.beginReadOnlyQ, .userQ req.sqlArg, .rollbackQ])
        | .ok _ => (.ok ⟨renderRows rows, false⟩, [.beginReadOnlyQ, .userQ req.sqlArg, .rollbackQ])
  else
    (.error ("Unknown tool: " ++ req.name), [])

/-- The call-tool handler.  `pool.connect()` comes first, outside the
`try`: its failure rejects the handler and is NOT converted.  Otherwise
the catch turns any thrown message into an `isError` response and the
`finally` releases the client on every path. -/
def callToolHandler (db : Db) (req : CallRequest) :
    Except String ToolResponse × List Event :=
  match db.connectR with
  | .error e => (.error e, [])
  | .ok _ =>
    (Except.ok (match (tryBody db req).1 with
      | .ok resp => resp
      | .error e => ⟨"Error: " ++ e, true⟩),
     .connect :: (tryBody db req).2.map .exec ++ [.release])

/-- One entry of the list-resources response. -/
structure ResourceEntry where
  uri : String
  mimeType : String
  name : String
deriving DecidableEq

/-- The list-resources handler: acquire, list tables, map each row to a
resource entry whose URI is built against `resourceBaseUrl`, release in
the `finally`; a failure rejects the handler after the release. -/
def listResourcesHandler (db : Db) (conn : ConnUrl) :
    Except String (List ResourceEntry) × List Event :=
  match db.connectR with
  | .error e => (.error e, [])
  | .ok _ =>
    match db.listTablesR with
    | .error e => (.error e, [.connect, .exec .listTablesQ, .release])
    | .ok rows =>
      (.ok (rows.map (fun r =>
        { uri := resourceUri conn r.table_name,
          mimeType := "application/json",
          name := "\"" ++ r.table_name ++ "\" database schema" })),
       [.connect, .exec .listTablesQ, .release])

/-- One content block of a read-resource response. -/
structure ReadContents where
  uri : String
  mimeType : String
  text : String
deriving DecidableEq

structure ReadResult where
  contents : List ReadContents
deriving DecidableEq

/-- The read-resource handler: the URI pathname is validated BEFORE the
pool is touched; then columns, primary keys and foreign keys are
queried, the schema record is assembled and serialized, and the client
is released on every path. -/
def readResourceHandler (db : Db) (uri pathname : String) :
    Except String ReadResult × List Event :=
  match parseAddress pathname with
  | .error e => (.error e, [])
  | .ok (tableName, _) =>
    match db.connectR with
    | .error e => (.error e, [])
    | .ok _ =>
      match db.columnsR tableName with
      | .error e => (.error e, [.connect, .exec (.columnsQ tableName), .release])
      | .ok cols =>
        match db.primaryKeysR tableName with
        | .error e => (.error e,
            [.connect, .exec (.columnsQ tableName), .exec (.primaryKeysQ tableName), .release])
        | .ok pks =>
          match db.foreignKeysR tableName with
          | .error e => (.error e,
              [.connect, .exec (.columnsQ tableName), .exec (.primaryKeysQ tableName),
               .exec (.foreignKeysQ tableName), .release])
          | .ok fks =>
            (.ok { contents := [{ uri := uri, mimeType := "application/json",
                                  text := renderTableInfo (assembleTableInfo tableName cols pks fks) }] },
             [.connect, .exec (.columnsQ tableName), .exec (.primaryKeysQ tableName),
              .exec (.foreignKeysQ tableName), .release])

/-! ## Helper lemmas on the tables object -/

theorem objInsert_fresh {α : Type} (m : List (String × α)) (k : String) (v : α)
    (h : ∀ p ∈ m, p.1 ≠ k) : objInsert m k v = m ++ [(k, v)] := by
  rw [objInsert, if_neg]
  simp only [List.any_eq_true, decide_eq_true_eq, not_exists]
  intro p
  rw [not_and]
  exact h p

theorem objInsert_keys_mem {α : Type} (m : List (String × α)) (k n : String) (v : α) :
    n ∈ (objInsert m k v).map Prod.fst ↔ n ∈ m.map Prod.fst ∨ n = k := by
  rw [objInsert]
  by_cases hk : (m.any fun p => p.1 = k) = true
  · rw [if_pos hk, List.map_map]
    have hmap : ∀ p ∈ m, (Prod.fst ∘ fun p : String × α => if p.1 = k then (k, v) else p) p = p.1 := by
      intro p _
      by_cases hp : p.1 = k
      · simp [hp]
      · simp [hp]
    rw [List.map_congr_left hmap]
    constructor
    · intro hm; exact Or.inl hm
    · rintro (hm | rfl)
      · exact hm
      · simp only [List.any_eq_true, decide_eq_true_eq] at hk
        obtain ⟨p, hp, hpk⟩ := hk
        exact List.mem_map.mpr ⟨p, hp, hpk⟩
  · rw [if_neg hk, List.map_append]
    simp [List.mem_append, or_comm]

theorem foldl_objInsert_nodup (colsOf : String → List ColumnRow) :
    ∀ (rows : List TableRow) (acc : List (String × TableInfo)),
      (rows.map (fun r => r.table_name)).Nodup →
      (∀ r ∈ rows, ∀ p ∈ acc, p.1 ≠ r.table_name) →
      rows.foldl (fun m r =>
          objInsert m r.table_name (dbSchemaTableEntry r.table_name (colsOf r.table_name))) acc
        = acc ++ rows.map (fun r =>
            (r.table_name, dbSchemaTableEntry r.table_name (colsOf r.table_name))) := by
  intro rows
  induction rows with
  | nil => intro acc _ _; simp
  | cons r rest ih =>
    intro acc hnd hfresh
    rw [List.foldl_cons,
      objInsert_fresh _ _ _ (hfresh r (List.mem_cons_self r rest))]
    rw [List.map_cons, List.nodup_cons] at hnd
    have hfresh2 : ∀ r' ∈ rest, ∀ p ∈ acc ++ [(r.table_name,
        dbSchemaTableEntry r.table_name (colsOf r.table_name))], p.1 ≠ r'.table_name := by
      intro r' hr' p hp
      rcases List.mem_append.mp hp with hp' | hp'
      · exact hfresh r' (List.mem_cons_of_mem r hr') p hp'
      · rw [List.mem_singleton.mp hp']
        intro he
        exact hnd.1 (List.mem_map.mpr ⟨r', hr', he.symm⟩)
    rw [ih _ hnd.2 hfresh2, List.map_cons, List.append_assoc, List.singleton_append]

/-- The fallible column loop agrees with the pure assembler when every
column query succeeds. -/
theorem buildTablesLoop_ok (colsOf : Option String → Except String (List ColumnRow))
    (cf : String → List ColumnRow) (h : ∀ t, colsOf (some t) = .ok (cf t)) :
    ∀ (rows : List TableRow) (acc : List (String × TableInfo)),
      buildTablesLoop colsOf rows acc =
        (.ok (rows.foldl (fun m r =>
            objInsert m r.table_name (dbSchemaTableEntry r.table_name (cf r.table_name))) acc),
         rows.map (fun r => Stmt.columnsQ (some r.table_name))) := by
  intro rows
  induction rows with
  | nil => intro acc; rfl
  | cons r rest ih =>
    intro acc
    rw [buildTablesLoop, h r.table_name]
    simp only [ih, List.foldl_cons, List.map_cons]

/-! ## Claim C4 -/

/-- Claim C4 (confirmed): for every catalog state with distinct table
names, the get-database-schema tool returns one tables entry per listed
table restricted to columns only — `primary_keys` and `foreign_keys` are
empty for every entry — and the views and indexes collections are empty;
the handler replies with exactly the serialization of this record. -/
theorem c4_database_schema_shape (db : Db) (rows : List TableRow)
    (cf : String → List ColumnRow)
    (hnd : (rows.map (fun r => r.table_name)).Nodup)
    (hc : db.connectR = .ok ())
    (hl : db.listTablesR = .ok rows)
    (hcols : ∀ t, db.columnsR (some t) = .ok (cf t)) :
    (describeDatabase rows cf).views = [] ∧
    (describeDatabase rows cf).indexes = [] ∧
    (describeDatabase rows cf).tables.map Prod.fst = rows.map (fun r => r.table_name) ∧
    (∀ p ∈ (describeDatabase rows cf).tables,
        p.2.primary_keys = [] ∧ p.2.foreign_keys = [] ∧
        p.2.columns = (cf p.1).map mkColumnDescriptor ∧ p.2.name = some p.1) ∧
    (callToolHandler db ⟨"get_database_schema", none⟩).1 =
      .ok ⟨renderDatabaseSchemaInfo (describeDatabase rows cf), false⟩ := by
  have htables : (describeDatabase rows cf).tables
      = rows.map (fun r => (r.table_name, dbSchemaTableEntry r.table_name (cf r.table_name))) := by
    show rows.foldl _ [] = _
    rw [foldl_objInsert_nodup cf rows [] hnd (by intro r _ p hp; cases hp),
      List.nil_append]
  refine ⟨rfl, rfl, ?_, ?_, ?_⟩
  · rw [htables, List.map_map]
    rfl
  · intro p hp
    rw [htables] at hp
    obtain ⟨r, _, rfl⟩ := List.mem_map.mp hp
    exact ⟨rfl, rfl, rfl, rfl⟩
  · simp only [callToolHandler, hc]
    simp only [tryBody, hl, buildTablesLoop_ok db.columnsR cf hcols rows []]
    simp only [reduceIte]
    rfl

/-- Fixture: a healthy oracle over tables `users` and `orders` with
empty column lists. -/
def dbHappy : Db :=
  { connectR := .ok (), probeR := .ok (),
    listTablesR := .ok [⟨"users"⟩, ⟨"orders"⟩],
    columnsR := fun _ => .ok [],
    primaryKeysR := fun _ => .ok [],
    foreignKeysR := fun _ => .ok [],
    beginR := .ok (),
    userR := fun _ => .ok [],
    rollbackR := .ok () }

/-- Witness for C4 at a concrete two-table catalog. -/
theorem c4_database_schema_shape_witness :
    (describeDatabase [⟨"users"⟩, ⟨"orders"⟩] (fun _ => [])).views = [] ∧
    (describeDatabase [⟨"users"⟩, ⟨"orders"⟩] (fun _ => [])).indexes = [] ∧
    (describeDatabase [⟨"users"⟩, ⟨"orders"⟩] (fun _ => [])).tables.map Prod.fst
      = ([⟨"users"⟩, ⟨"orders"⟩] : List TableRow).map (fun r => r.table_name) ∧
    (∀ p ∈ (describeDatabase [⟨"users"⟩, ⟨"orders"⟩] (fun _ => [])).tables,
        p.2.primary_keys = [] ∧ p.2.foreign_keys = [] ∧
        p.2.columns = (([] : List ColumnRow)).map mkColumnDescriptor ∧ p.2.name = some p.1) ∧
    (callToolHandler dbHappy ⟨"get_database_schema", none⟩).1 =
      .ok ⟨renderDatabaseSchemaInfo (describeDatabase [⟨"users"⟩, ⟨"orders"⟩] (fun _ => [])), false⟩ :=
  c4_database_schema_shape dbHappy [⟨"users"⟩, ⟨"orders"⟩] (fun _ => [])
    (by decide) rfl rfl (fun _ => rfl)

/-! ## Claim C6 -/

/-- Claim C6 (confirmed): for a fixed catalog snapshot, the set of names
returned by the list-tables tool equals the set of keys of the tables
mapping of the get-database-schema / describeDatabase result, and the
handler replies with the serialization of exactly those names. -/
theorem c6_list_tables_matches_schema_keys (db : Db) (rows : List TableRow)
    (cf : String → List ColumnRow)
    (hc : db.connectR = .ok ())
    (hl : db.listTablesR = .ok rows) :
    (∀ n : String, n ∈ listTablesNames rows ↔
        n ∈ (describeDatabase rows cf).tables.map Prod.fst) ∧
    (callToolHandler db ⟨"list_tables", none⟩).1 =
      .ok ⟨renderStringArray (listTablesNames rows), false⟩ := by
  constructor
  · intro n
    show n ∈ rows.map (fun r => r.table_name) ↔ _
    have hkeys : ∀ (rs : List TableRow) (acc : List (String × TableInfo)),
        (n ∈ (rs.foldl (fun m r =>
            objInsert m r.table_name (dbSchemaTableEntry r.table_name (cf r.table_name))) acc).map Prod.fst
          ↔ n ∈ acc.map Prod.fst ∨ n ∈ rs.map (fun r => r.table_name)) := by
      intro rs
      induction rs with
      | nil => intro acc; simp
      | cons r rest ih =>
        intro acc
        rw [List.foldl_cons, ih, objInsert_keys_mem, List.map_cons, List.mem_cons]
        tauto
    rw [show (describeDatabase rows cf).tables = rows.foldl _ [] from rfl, hkeys rows []]
    simp
  · simp only [callToolHandler, hc]
    simp only [tryBody, hl]
    simp only [reduceIte]
    rfl

/-- Witness for C6 at a concrete two-table catalog. -/
theorem c6_list_tables_matches_schema_keys_witness :
    (∀ n : String, n ∈ listTablesNames [⟨"users"⟩, ⟨"orders"⟩] ↔
        n ∈ (describeDatabase [⟨"users"⟩, ⟨"orders"⟩] (fun _ => [])).tables.map Prod.fst) ∧
    (callToolHandler dbHappy ⟨"list_tables", none⟩).1 =
      .ok ⟨renderStringArray (listTablesNames [⟨"users"⟩, ⟨"orders"⟩]), false⟩ :=
  c6_list_tables_matches_schema_keys dbHappy [⟨"users"⟩, ⟨"orders"⟩] (fun _ => []) rfl rfl

/-! ## Claim C2 -/

/-- Claim C2 counterexample: two table names containing no
path-delimiting character (no slash, question mark or number sign) whose
round trip does not return the original name.  `my table` comes back
percent-encoded as `my%20table` (`new URL` encodes the space and the
parser never decodes); `a:b` makes the reference `a:b/schema` an
absolute URL with opaque path `b/schema`, so the round trip yields
`b`. -/
theorem c2_roundTrip_counterexample :
    parseAddress (builtPathname connScheme "my table")
      = Except.ok (some "my%20table", "schema") ∧
    (some "my%20table" : Option String) ≠ some "my table" ∧
    "my table".data.all
      (fun c => ¬ (c = slashChar ∨ c = questionChar ∨ c = hashChar)) = true ∧
    parseAddress (builtPathname connScheme "a:b")
      = Except.ok (some "b", "schema") ∧
    (some "b" : Option String) ≠ some "a:b" ∧
    "a:b".data.all
      (fun c => ¬ (c = slashChar ∨ c = questionChar ∨ c = hashChar)) = true :=
  ⟨rfl, by decide, by decide, rfl, by decide, by decide⟩

/-- Claim C2 (corrected): the round trip `parseAddress ∘ buildAddress`
returns `(t, "schema")` for every table name whose characters are
printable ASCII outside the URL path percent-encode set, are not path
delimiters or backslashes, do not form a dot segment, and do not begin
with a URL-scheme prefix (an alphabetic character followed by scheme
characters and a colon, which makes the reference an absolute URL);
every pathname whose trailing segment is not the literal `schema` fails
with the invalid-address error; and that check is the sole validation —
any pathname ending in `schema` parses successfully with the preceding
segment passed through unchecked. -/
theorem c2_roundTrip_amended (base : ConnUrl) (t pn pn2 : String)
    (hsafe : safeTableName t = true)
    (hbad : (splitSlash pn).getLast?.getD "" ≠ "schema")
    (hgood : (splitSlash pn2).getLast?.getD "" = "schema") :
    parseAddress (builtPathname base t) = Except.ok (some t, "schema") ∧
    parseAddress pn = Except.error "Invalid resource URI" ∧
    parseAddress pn2 = Except.ok ((splitSlash pn2).dropLast.getLast?, "schema") := by
  refine ⟨?_, ?_, ?_⟩
  · have hsch := (safeTableName_facts hsafe).2.2.2
    rw [builtPathname, if_neg (by rw [hsch]; exact Bool.false_ne_true)]
    exact parse_build_roundTrip (pathSegsOf base.pathname) t hsafe
      (fun s hs => splitSlash_mem_noSlash base.pathname s (List.drop_subset 1 _ hs))
  · simp only [parseAddress, if_neg hbad]
  · simp only [parseAddress, hgood, if_pos]

/-- Witness for the amended C2 at a concrete base and inputs. -/
theorem c2_roundTrip_amended_witness :
    parseAddress (builtPathname connScheme "users") = Except.ok (some "users", "schema") ∧
    parseAddress "/users/other" = Except.error "Invalid resource URI" ∧
    parseAddress "/x/schema" = Except.ok ((splitSlash "/x/schema").dropLast.getLast?, "schema") :=
  c2_roundTrip_amended connScheme "users" "/users/other" "/x/schema"
    (by decide) (by decide) (by decide)

/-! ## Claim C1 -/

/-- Fixture: a healthy oracle whose user SQL execution fails. -/
def dbSqlFail : Db := { dbHappy with userR := fun _ => .error "boom" }

/-- Claim C1 counterexample: when execution of the SQL text fails, the
handler surfaces the failure as an error response WITHOUT ever sending
ROLLBACK — the trace ends after the failed user statement, contradicting
the claim that the rollback executes on every outcome. -/
theorem c1_rollback_counterexample :
    callToolHandler dbSqlFail ⟨"query", some "INSERT INTO t VALUES (1)"⟩ =
      (.ok ⟨"Error: boom", true⟩,
       [.connect, .exec .beginReadOnlyQ,
        .exec (.userQ (some "INSERT INTO t VALUES (1)")), .release]) ∧
    Event.exec .rollbackQ ∉
      (callToolHandler dbSqlFail ⟨"query", some "INSERT INTO t VALUES (1)"⟩).2 :=
  ⟨rfl, by decide⟩

/-- No branch of the column loop ever sends COMMIT. -/
theorem commit_not_in_loop (colsOf : Option String → Except String (List ColumnRow)) :
    ∀ (rows : List TableRow) (acc : List (String × TableInfo)),
      Stmt.commitQ ∉ (buildTablesLoop colsOf rows acc).2 := by
  intro rows
  induction rows with
  | nil => intro acc h; cases h
  | cons r rest ih =>
    intro acc
    rw [buildTablesLoop]
    rcases colsOf (some r.table_name) with e | cols
    · intro h
      rcases List.mem_singleton.mp h
    · intro h
      rcases List.mem_cons.mp h with h' | h'
      · cases h'
      · exact ih _ h'

/-- No branch of the try body ever sends COMMIT. -/
theorem commit_not_in_tryBody (db : Db) (req : CallRequest) :
    Stmt.commitQ ∉ (tryBody db req).2 := by
  rw [tryBody]
  split_ifs
  · rcases db.probeR with e | u <;> simp
  · rcases db.listTablesR with e | rows <;> simp
  · split
    · intro hmem
      rcases List.mem_singleton.mp hmem
    · split <;>
        · rename_i rows2 hrows res tbls tr heq
          intro hmem
          rcases List.mem_cons.mp hmem with h' | h'
          · cases h'
          · have h0 := commit_not_in_loop db.columnsR rows2 []
            rw [heq] at h0
            exact h0 h'
  · rcases db.beginR with e | u
    · simp
    · rcases db.userR req.sqlArg with e | rows
      · simp
      · rcases db.rollbackR with e | u <;> simp
  · simp

/-- No tool call ever sends COMMIT. -/
theorem commit_not_in_callTool (db : Db) (req : CallRequest) :
    Event.exec Stmt.commitQ ∉ (callToolHandler db req).2 := by
  rcases hc : db.connectR with e | u
  · simp [callToolHandler, hc]
  · simp only [callToolHandler, hc]
    intro hm
    rcases List.mem_cons.mp hm with h' | h'
    · cases h'
    · rcases List.mem_append.mp h' with h2 | h2
      · obtain ⟨stmt, hs, he⟩ := List.mem_map.mp h2
        cases he
        exact commit_not_in_tryBody db req hs
      · rcases List.mem_singleton.mp h2

/-- Claim C1 (corrected): the ROLLBACK is issued only when the SQL text
executes successfully — on success the trace is BEGIN, the user
statement, ROLLBACK; if execution fails the error is converted to an
`isError` response and surfaced WITHOUT any rollback, the transaction
being left open on the released connection.  No COMMIT is ever sent on
any path, so nothing is ever committed. -/
theorem c1_rollback_only_on_success (db : Db) (sql : Option String)
    (h1 : db.connectR = .ok ()) (h2 : db.beginR = .ok ()) :
    (∀ rows : List Row, db.userR sql = .ok rows → db.rollbackR = .ok () →
      callToolHandler db ⟨"query", sql⟩ =
        (.ok ⟨renderRows rows, false⟩,
         [.connect, .exec .beginReadOnlyQ, .exec (.userQ sql),
          .exec .rollbackQ, .release])) ∧
    (∀ e : String, db.userR sql = .error e →
      callToolHandler db ⟨"query", sql⟩ =
        (.ok ⟨"Error: " ++ e, true⟩,
         [.connect, .exec .beginReadOnlyQ, .exec (.userQ sql), .release])) ∧
    Event.exec Stmt.commitQ ∉ (callToolHandler db ⟨"query", sql⟩).2 := by
  refine ⟨?_, ?_, commit_not_in_callTool db ⟨"query", sql⟩⟩
  · intro rows hok hrb
    simp only [callToolHandler, h1, tryBody, reduceIte, h2, hok, hrb]
    rfl
  · intro e he
    simp only [callToolHandler, h1, tryBody, reduceIte, h2, he]
    rfl

/-- Witness for the amended C1: concrete failing execution, no rollback. -/
theorem c1_rollback_only_on_success_witness :
    callToolHandler dbSqlFail ⟨"query", some "SELECT 1"⟩ =
      (.ok ⟨"Error: boom", true⟩,
       [.connect, .exec .beginReadOnlyQ, .exec (.userQ (some "SELECT 1")), .release]) :=
  (c1_rollback_only_on_success dbSqlFail (some "SELECT 1") rfl rfl).2.1 "boom" rfl

/-! ## Claim C3 -/

/-- Fixture: an oracle whose connection acquisition fails. -/
def dbDown : Db := { dbHappy with connectR := .error "connection refused" }

/-- Claim C3 counterexample: `pool.connect()` stands OUTSIDE the
try/catch, so when acquisition fails the handler rejects with the raw
failure instead of returning a response — the dispatcher does not
convert every failure. -/
theorem c3_connect_failure_counterexample :
    callToolHandler dbDown ⟨"list_tables", none⟩ =
      (.error "connection refused", []) := rfl

/-- Claim C3 (corrected): provided connection acquisition succeeds,
every tool invocation — any name, including unknown ones, and any
arguments — returns a protocol-level response; every failure thrown
inside the dispatch body is converted into a successful response whose
content is the human-readable message prefixed with `Error: ` and whose
`isError` flag is true; an unknown tool name yields exactly the
`Unknown tool` message.  (A connection-acquisition failure, by contrast,
propagates out of the handler.) -/
theorem c3_failures_become_isError (db : Db) (req : CallRequest)
    (h : db.connectR = .ok ()) :
    (∃ r : ToolResponse, (callToolHandler db req).1 = .ok r) ∧
    (∀ e : String, (tryBody db req).1 = .error e →
      (callToolHandler db req).1 = .ok ⟨"Error: " ++ e, true⟩) ∧
    (req.name ≠ "connect_database" → req.name ≠ "list_tables" →
     req.name ≠ "get_database_schema" → req.name ≠ "query" →
      (callToolHandler db req).1 = .ok ⟨"Error: Unknown tool: " ++ req.name, true⟩) := by
  refine ⟨?_, ?_, ?_⟩
  · rcases hb : (tryBody db req).1 with e | r
    · exact ⟨⟨"Error: " ++ e, true⟩, by simp [callToolHandler, h, hb]⟩
    · exact ⟨r, by simp [callToolHandler, h, hb]⟩
  · intro e he
    simp [callToolHandler, h, he]
  · intro h1 h2 h3 h4
    have hb : (tryBody db req).1 = .error ("Unknown tool: " ++ req.name) := by
      rw [tryBody, if_neg h1, if_neg h2, if_neg h3, if_neg h4]
    simp only [callToolHandler, h, hb]
    rw [← strAppendAssoc]
    rfl

/-- Witness for the amended C3: an unknown tool on a healthy pool. -/
theorem c3_failures_become_isError_witness :
    (∃ r : ToolResponse, (callToolHandler dbHappy ⟨"bogus_tool", none⟩).1 = .ok r) ∧
    (∀ e : String, (tryBody dbHappy ⟨"bogus_tool", none⟩).1 = .error e →
      (callToolHandler dbHappy ⟨"bogus_tool", none⟩).1 = .ok ⟨"Error: " ++ e, true⟩) ∧
    (("bogus_tool" : String) ≠ "connect_database" → ("bogus_tool" : String) ≠ "list_tables" →
     ("bogus_tool" : String) ≠ "get_database_schema" → ("bogus_tool" : String) ≠ "query" →
      (callToolHandler dbHappy ⟨"bogus_tool", none⟩).1 =
        .ok ⟨"Error: Unknown tool: " ++ "bogus_tool", true⟩) :=
  c3_failures_become_isError dbHappy ⟨"bogus_tool", none⟩ rfl

/-! ## Claim C5 -/

/-- Folding the pool counter over statement events only. -/
theorem poolDelta_foldl_execs (stmts : List Stmt) :
    ∀ acc : Int, (stmts.map Event.exec).foldl (fun acc e => match e with
      | .connect => acc + 1
      | .release => acc - 1
      | .exec _ => acc) acc = acc := by
  induction stmts with
  | nil => intro acc; rfl
  | cons s rest ih => intro acc; exact ih acc

/-- A connect / statements / release trace is pool-neutral. -/
theorem poolDelta_shape (stmts : List Stmt) :
    poolDelta (.connect :: stmts.map .exec ++ [.release]) = 0 := by
  show (stmts.map Event.exec ++ [Event.release]).foldl _ (0 + 1) = 0
  rw [List.foldl_append, poolDelta_foldl_execs stmts (0 + 1)]
  rfl

/-- A connect / statements / release trace ends with the release. -/
theorem trace_last_release (stmts : List Stmt) :
    (Event.connect :: stmts.map .exec ++ [Event.release]).getLast?
      = some Event.release := by
  rw [show Event.connect :: stmts.map Event.exec ++ [Event.release]
      = (Event.connect :: stmts.map Event.exec) ++ [Event.release] from rfl,
    List.getLast?_concat]

/-- Claim C5 (confirmed): whenever a connection is acquired it is
released on every exit path before the handler returns — the trace of
every handler is pool-neutral and, for the call-tool handler, ends with
the release; in particular a query call whose SQL fails still answers
with `isError` true while the pool count is unchanged. -/
theorem c5_connection_scoping (db : Db) (req : CallRequest) (conn : ConnUrl)
    (uri pathname : String) (sql : Option String) (e : String)
    (h1 : db.connectR = .ok ()) (h2 : db.beginR = .ok ())
    (h3 : db.userR sql = .error e) :
    poolDelta (callToolHandler db req).2 = 0 ∧
    poolDelta (listResourcesHandler db conn).2 = 0 ∧
    poolDelta (readResourceHandler db uri pathname).2 = 0 ∧
    (callToolHandler db req).2.getLast? = some Event.release ∧
    ((callToolHandler db ⟨"query", sql⟩).1 = .ok ⟨"Error: " ++ e, true⟩ ∧
      poolDelta (callToolHandler db ⟨"query", sql⟩).2 = 0) := by
  refine ⟨?_, ?_, ?_, ?_, ?_, ?_⟩
  · simp only [callToolHandler, h1]
    exact poolDelta_shape _
  · rcases hl : db.listTablesR with e' | rows <;>
      simp [listResourcesHandler, h1, hl, poolDelta]
  · rcases hp : parseAddress pathname with e' | tn
    · simp [readResourceHandler, hp, poolDelta]
    · obtain ⟨tn1, tag⟩ := tn
      rcases hc : db.columnsR tn1 with e1 | cols
      · simp [readResourceHandler, hp, h1, hc, poolDelta]
      · rcases hpk : db.primaryKeysR tn1 with e2 | pks
        · simp [readResourceHandler, hp, h1, hc, hpk, poolDelta]
        · rcases hfk : db.foreignKeysR tn1 with e3 | fks <;>
            simp [readResourceHandler, hp, h1, hc, hpk, hfk, poolDelta]
  · simp only [callToolHandler, h1]
    exact trace_last_release _
  · simp only [callToolHandler, h1, tryBody, reduceIte, h2, h3]
    rfl
  · simp only [callToolHandler, h1]
    exact poolDelta_shape _

/-- Witness for C5: concrete failing SQL on a healthy pool. -/
theorem c5_connection_scoping_witness :
    poolDelta (callToolHandler dbSqlFail ⟨"connect_database", none⟩).2 = 0 ∧
    poolDelta (listResourcesHandler dbSqlFail
      { scheme := "postgres", username := "", password := "", host := "h",
        port := none, pathname := "/d" }).2 = 0 ∧
    poolDelta (readResourceHandler dbSqlFail "u" "/users/schema").2 = 0 ∧
    (callToolHandler dbSqlFail ⟨"connect_database", none⟩).2.getLast?
      = some Event.release ∧
    ((callToolHandler dbSqlFail ⟨"query", some "SELECT oops("⟩).1 =
        .ok ⟨"Error: " ++ "boom", true⟩ ∧
      poolDelta (callToolHandler dbSqlFail ⟨"query", some "SELECT oops("⟩).2 = 0) :=
  c5_connection_scoping dbSqlFail ⟨"connect_database", none⟩
    { scheme := "postgres", username := "", password := "", host := "h",
      port := none, pathname := "/d" }
    "u" "/users/schema" (some "SELECT oops(") "boom" rfl rfl rfl

/-! ## Claim C7 -/

/-- Claim C7 (confirmed): when the catalog returns no rows for the
addressed table — whether the table is unknown or merely empty — the
read-resource handler succeeds and serializes a TableSchema whose
columns, primary-key and foreign-key sequences are all empty; no error
is raised and the two situations are indistinguishable. -/
theorem c7_missing_table_empty_schema (db : Db) (uri pathname t : String)
    (hp : parseAddress pathname = .ok (some t, "schema"))
    (hc : db.connectR = .ok ())
    (hcols : db.columnsR (some t) = .ok [])
    (hpks : db.primaryKeysR (some t) = .ok [])
    (hfks : db.foreignKeysR (some t) = .ok []) :
    readResourceHandler db uri pathname =
      (.ok { contents := [{ uri := uri, mimeType := "application/json",
                            text := renderTableInfo (assembleTableInfo (some t) [] [] []) }] },
       [.connect, .exec (.columnsQ (some t)), .exec (.primaryKeysQ (some t)),
        .exec (.foreignKeysQ (some t)), .release]) ∧
    assembleTableInfo (some t) [] [] [] =
      { name := some t, columns := [], primary_keys := [], foreign_keys := [] } := by
  constructor
  · simp [readResourceHandler, hp, hc, hcols, hpks, hfks]
  · rfl

/-- Witness for C7: reading a table absent from the catalog. -/
theorem c7_missing_table_empty_schema_witness :
    readResourceHandler dbHappy "postgres://h/ghost/schema" "/ghost/schema" =
      (.ok { contents := [{ uri := "postgres://h/ghost/schema",
                            mimeType := "application/json",
                            text := renderTableInfo (assembleTableInfo (some "ghost") [] [] []) }] },
       [.connect, .exec (.columnsQ (some "ghost")), .exec (.primaryKeysQ (some "ghost")),
        .exec (.foreignKeysQ (some "ghost")), .release]) ∧
    assembleTableInfo (some "ghost") [] [] [] =
      { name := some "ghost", columns := [], primary_keys := [], foreign_keys := [] } :=
  c7_missing_table_empty_schema dbHappy "postgres://h/ghost/schema" "/ghost/schema"
    "ghost" rfl rfl rfl rfl rfl

/-! ## Claim C9 -/

/-- Claim C9 (confirmed): a read-resource request whose trailing path
segment is not the literal `schema` is rejected before the pool is
touched — the handler throws the invalid-address error with an empty
event trace: no connection is acquired, no catalog query is issued, and
the pool count is unchanged. -/
theorem c9_invalid_address_before_pool (db : Db) (uri pathname : String)
    (h : (splitSlash pathname).getLast?.getD "" ≠ "schema") :
    readResourceHandler db uri pathname = (.error "Invalid resource URI", []) ∧
    poolDelta (readResourceHandler db uri pathname).2 = 0 := by
  have hp : parseAddress pathname = .error "Invalid resource URI" := by
    simp only [parseAddress, if_neg h]
  constructor
  · simp [readResourceHandler, hp]
  · simp [readResourceHandler, hp, poolDelta]

/-- Witness for C9: a URI ending in `columns` instead of `schema`. -/
theorem c9_invalid_address_before_pool_witness :
    readResourceHandler dbHappy "u" "/users/columns" =
      (.error "Invalid resource URI", []) ∧
    poolDelta (readResourceHandler dbHappy "u" "/users/columns").2 = 0 :=
  c9_invalid_address_before_pool dbHappy "u" "/users/columns" (by decide)
/-! ## Claim C8 -/

end DbSchemaMcp
